import Mathlib

/-!
# Verification of the Windows local-time resolver

A shallow embedding of the `offset/local/windows.rs` and
`offset/local/windows_sys/mod.rs` backend of a date/time library, together
with proofs and refutations of its specified properties.

The embedding models:

* the pure day-of-year helper `yday` and the `FILETIME` tick arithmetic
  (`WinFileTime.from_seconds`, `WinFileTime.as_unix_seconds`) directly from
  the source;
* the Windows OS calls (`SystemTimeToFileTime`, `FileTimeToSystemTime`,
  `SystemTimeToTzSpecificLocalTime`, `TzSpecificLocalTimeToSystemTime`,
  `GetTimeZoneInformation`) as a parameterised environment `OsEnv` over a
  proleptic-Gregorian calendar engine, since those calls are external to the
  repository;
* the external calendar/time value types (`NaiveDate`, `NaiveTime`,
  `FixedOffset`, `DateTime`, `LocalResult`) from the specification's
  description of their contracts;
* the resolver itself (`naive_to_local`, `tm_to_datetime`,
  `Tm.update_from_seconds`, ...) line by line from the source, with `Option`
  capturing panics (`none` = panic) and the source's `LocalResult` values
  kept as ordinary results.

Machine-integer casts that occur in the source (`as u16`, `as u32`,
`as i32`, `as u64`, wrapping `i64` arithmetic) are modelled explicitly by
the `u16wrap`/`u32wrap`/`i32wrap`/`u64wrap`/`i64wrap` helpers on `Int`.
-/

namespace ChronoWin

/-! ## Machine integer casts -/

/-- Rust `as u16` cast of an `i32`-like value: reduction modulo `2^16`. -/
def u16wrap (x : Int) : Int := x % 65536

/-- Rust `as u32` cast: reduction modulo `2^32`. -/
def u32wrap (x : Int) : Int := x % 4294967296

/-- Rust `as u64` cast of an `i64`: reduction modulo `2^64`. -/
def u64wrap (x : Int) : Int := x % 18446744073709551616

/-- Wrapping `i32` arithmetic: reduce into `[-2^31, 2^31)`. -/
def i32wrap (x : Int) : Int := (x + 2147483648) % 4294967296 - 2147483648

/-- Wrapping `i64` arithmetic: reduce into `[-2^63, 2^63)`. -/
def i64wrap (x : Int) : Int :=
  (x + 9223372036854775808) % 18446744073709551616 - 9223372036854775808

/-- Rust `as i64` cast of a `u64` value in `[0, 2^64)`: two's complement. -/
def i64ofU64 (u : Int) : Int :=
  if u < 9223372036854775808 then u else u - 18446744073709551616

/-! ## Proleptic Gregorian calendar engine

Modelled from the spec: the OS Time Bridge converts between a fixed-epoch
tick counter and calendar records using the proleptic Gregorian calendar.
The civil-date/day-number conversion below decomposes the 400-year era
into centuries, 4-year blocks and years, with March taken as the first
month of the shifted year (so that a leap day is the last day of a shifted
year).  `daysFromCivil`/`civilFromDays` map a Gregorian date to/from the
number of days since 1970-01-01. -/

/-- First day-of-shifted-year of shifted month `mp` (`0` = March, ...,
`10` = January, `11` = February); the standard closed form. -/
def monthStartDoy (mp : Int) : Int := (153 * mp + 2) / 5

/-- Shifted month (`0` = March, ..., `11` = February) containing
day-of-shifted-year `doy`; the standard closed form. -/
def monthFromDoy (doy : Int) : Int := (5 * doy + 2) / 153

/-- Number of days of shifted month `mp` (February counted with its leap day). -/
def mLenShift (mp : Int) : Int :=
  if mp = 11 then 29 else monthStartDoy (mp + 1) - monthStartDoy mp

/-- Gregorian leap-year predicate (the full rule, with century exceptions). -/
def isGregLeap (y : Int) : Prop := y % 4 = 0 ∧ (y % 100 ≠ 0 ∨ y % 400 = 0)

instance (y : Int) : Decidable (isGregLeap y) := by unfold isGregLeap; infer_instance

/-- Number of days of month `m` (1-based) of Gregorian year `y`. -/
def daysInMonth (y m : Int) : Int :=
  if m = 2 then (if isGregLeap y then 29 else 28)
  else if m = 4 ∨ m = 6 ∨ m = 9 ∨ m = 11 then 30 else 31

/-- Validity of a (year, 1-based month, day) triple in the proleptic
Gregorian calendar. -/
def validYmd (y m d : Int) : Prop := 1 ≤ m ∧ m ≤ 12 ∧ 1 ≤ d ∧ d ≤ daysInMonth y m

instance (y m d : Int) : Decidable (validYmd y m d) := by unfold validYmd; infer_instance

/-- Days since 1970-01-01 of the Gregorian date (y, m, d). -/
def daysFromCivil (y m d : Int) : Int :=
  let ys := y - (if m ≤ 2 then 1 else 0)
  let era := ys / 400
  let yoe := ys - era * 400
  let mp := if m ≤ 2 then m + 9 else m - 3
  let doy := monthStartDoy mp + d - 1
  let doe := 36524 * (yoe / 100) + 1461 * (yoe % 100 / 4) + 365 * (yoe % 100 % 4) + doy
  era * 146097 + doe - 719468

/-- 400-year era of a day number (era 0 starts 2000-03-01 - 719468 days back). -/
def cfdEra (z : Int) : Int := (z + 719468) / 146097

/-- Day-of-era, in `[0, 146096]`. -/
def cfdDoe (z : Int) : Int := (z + 719468) % 146097

/-- Century within the era, in `[0, 3]`; the era's very last day belongs to
century 3 (the one century that is a day longer). -/
def cfdCent (z : Int) : Int := if cfdDoe z = 146096 then 3 else cfdDoe z / 36524

/-- Day within the century, in `[0, 36524]`. -/
def cfdDoc (z : Int) : Int := cfdDoe z - 36524 * cfdCent z

/-- 4-year block within the century, in `[0, 24]`. -/
def cfdQuad (z : Int) : Int := cfdDoc z / 1461

/-- Day within the 4-year block, in `[0, 1460]`. -/
def cfdDoq (z : Int) : Int := cfdDoc z - 1461 * cfdQuad z

/-- Year within the 4-year block, in `[0, 3]`; the block's last day (a leap
day) belongs to year 3. -/
def cfdYq (z : Int) : Int := if cfdDoq z = 1460 then 3 else cfdDoq z / 365

/-- Day of the shifted year, in `[0, 365]`. -/
def cfdDoy (z : Int) : Int := cfdDoq z - 365 * cfdYq z

/-- Year of the era, in `[0, 399]`. -/
def cfdYoe (z : Int) : Int := 100 * cfdCent z + 4 * cfdQuad z + cfdYq z

/-- Shifted month of a day number. -/
def cfdMp (z : Int) : Int := monthFromDoy (cfdDoy z)

/-- Civil (1-based) month of a day number. -/
def cfdM (z : Int) : Int := if cfdMp z < 10 then cfdMp z + 3 else cfdMp z - 9

/-- Civil day-of-month of a day number. -/
def cfdD (z : Int) : Int := cfdDoy z - monthStartDoy (cfdMp z) + 1

/-- Civil year of a day number. -/
def cfdY (z : Int) : Int :=
  cfdYoe z + cfdEra z * 400 + (if cfdM z ≤ 2 then 1 else 0)

/-- Gregorian date (y, m, d) of a number of days since 1970-01-01. -/
def civilFromDays (z : Int) : Int × Int × Int := (cfdY z, cfdM z, cfdD z)

/-! ### Calendar round-trip lemmas -/

theorem monthStartDoy_bounds (mp : Int) (h0 : 0 ≤ mp) (h1 : mp ≤ 11) :
    0 ≤ monthStartDoy mp ∧ monthStartDoy mp ≤ 337 := by
  unfold monthStartDoy; omega

theorem mLenShift_bounds (mp : Int) (h0 : 0 ≤ mp) (h1 : mp ≤ 11) :
    1 ≤ mLenShift mp ∧ mLenShift mp ≤ 31 ∧
      monthStartDoy mp + mLenShift mp ≤ 366 ∧
      (monthStartDoy mp + mLenShift mp = 366 → mp = 11) := by
  unfold mLenShift monthStartDoy
  split_ifs <;> omega

theorem monthFromDoy_range (doy : Int) (h0 : 0 ≤ doy) (h1 : doy ≤ 365) :
    0 ≤ monthFromDoy doy ∧ monthFromDoy doy ≤ 11 := by
  unfold monthFromDoy; omega

theorem monthFromDoy_spec (doy : Int) (h0 : 0 ≤ doy) (h1 : doy ≤ 365) :
    monthStartDoy (monthFromDoy doy) ≤ doy ∧
    doy < monthStartDoy (monthFromDoy doy) + mLenShift (monthFromDoy doy) := by
  unfold mLenShift monthFromDoy monthStartDoy
  split_ifs <;> omega

theorem monthFromDoy_inv (mp dd : Int) (h0 : 0 ≤ mp) (h1 : mp ≤ 11)
    (h2 : 1 ≤ dd) (h3 : dd ≤ mLenShift mp) :
    monthFromDoy (monthStartDoy mp + dd - 1) = mp := by
  unfold mLenShift monthStartDoy at h3
  unfold monthFromDoy monthStartDoy
  split_ifs at h3 <;> omega

/-- A valid day-of-month fits inside the month's shifted-calendar slot. -/
theorem d_le_mLenShift (y m d : Int) (hm1 : 1 ≤ m) (hm2 : m ≤ 12)
    (hd2 : d ≤ daysInMonth y m) :
    d ≤ mLenShift (if m ≤ 2 then m + 9 else m - 3) := by
  interval_cases m <;>
    (unfold daysInMonth at hd2; unfold mLenShift monthStartDoy) <;>
    split_ifs at * <;> omega

/-- Decomposition ranges of a day number, including the fact that day 365 of
a shifted year occurs only in the last year of a 4-year block that actually
carries a leap day. -/
theorem cfd_decomp (z : Int) :
    z + 719468 = cfdEra z * 146097 + 36524 * cfdCent z + 1461 * cfdQuad z +
      365 * cfdYq z + cfdDoy z ∧
    0 ≤ cfdCent z ∧ cfdCent z ≤ 3 ∧ 0 ≤ cfdQuad z ∧ cfdQuad z ≤ 24 ∧
    0 ≤ cfdYq z ∧ cfdYq z ≤ 3 ∧ 0 ≤ cfdDoy z ∧ cfdDoy z ≤ 365 ∧
    (cfdDoy z = 365 → cfdYq z = 3 ∧ (cfdQuad z ≠ 24 ∨ cfdCent z = 3)) := by
  unfold cfdDoy cfdYq cfdDoq cfdQuad cfdDoc cfdCent cfdDoe cfdEra
  split_ifs <;> omega

/-- The era/century/quad/year decomposition of a day number is unique, so the
components can be recovered from any valid decomposition. -/
theorem civilFromDays_assemble (z era cent quad yq doy : Int)
    (hz : z + 719468 = era * 146097 + 36524 * cent + 1461 * quad + 365 * yq + doy)
    (hc : 0 ≤ cent ∧ cent ≤ 3) (hq : 0 ≤ quad ∧ quad ≤ 24)
    (hy : 0 ≤ yq ∧ yq ≤ 3) (hdoy : 0 ≤ doy ∧ doy ≤ 365)
    (hleap : doy = 365 → yq = 3 ∧ (quad ≠ 24 ∨ cent = 3)) :
    cfdEra z = era ∧ cfdCent z = cent ∧ cfdQuad z = quad ∧ cfdYq z = yq ∧
      cfdDoy z = doy := by
  have hub : 36524 * cent + 1461 * quad + 365 * yq + doy ≤ 146096 := by omega
  have hlb : 0 ≤ 36524 * cent + 1461 * quad + 365 * yq + doy := by omega
  have hera : cfdEra z = era := by unfold cfdEra; omega
  have hdoe : cfdDoe z = 36524 * cent + 1461 * quad + 365 * yq + doy := by
    unfold cfdDoe; omega
  have hcent : cfdCent z = cent := by
    unfold cfdCent
    rw [hdoe]
    split_ifs <;> omega
  have hdoc : cfdDoc z = 1461 * quad + 365 * yq + doy := by
    unfold cfdDoc
    rw [hdoe, hcent]
    ring
  have hquad : cfdQuad z = quad := by
    unfold cfdQuad
    rw [hdoc]
    omega
  have hdoq : cfdDoq z = 365 * yq + doy := by
    unfold cfdDoq
    rw [hdoc, hquad]
    ring
  have hyq : cfdYq z = yq := by
    unfold cfdYq
    rw [hdoq]
    split_ifs <;> omega
  have hdoy2 : cfdDoy z = doy := by
    unfold cfdDoy
    rw [hdoq, hyq]
    ring
  exact ⟨hera, hcent, hquad, hyq, hdoy2⟩

/-- `daysFromCivil` with the January/February branch resolved. -/
theorem daysFromCivil_eq_of_le (y m d : Int) (h : m ≤ 2) :
    daysFromCivil y m d = (y - 1) / 400 * 146097 +
      (36524 * ((y - 1) % 400 / 100) + 1461 * ((y - 1) % 400 % 100 / 4) +
       365 * ((y - 1) % 400 % 100 % 4) + (monthStartDoy (m + 9) + d - 1)) - 719468 := by
  simp only [daysFromCivil, if_pos h]
  omega

/-- `daysFromCivil` with the March-onwards branch resolved. -/
theorem daysFromCivil_eq_of_gt (y m d : Int) (h : ¬ (m ≤ 2)) :
    daysFromCivil y m d = (y - 0) / 400 * 146097 +
      (36524 * ((y - 0) % 400 / 100) + 1461 * ((y - 0) % 400 % 100 / 4) +
       365 * ((y - 0) % 400 % 100 % 4) + (monthStartDoy (m - 3) + d - 1)) - 719468 := by
  simp only [daysFromCivil, if_neg h]
  omega

/-- `daysFromCivil` inverts the era/century/quad/year/month decomposition. -/
theorem daysFromCivil_assemble (z era cent quad yq doy mp m d y : Int)
    (hz : z + 719468 = era * 146097 + 36524 * cent + 1461 * quad + 365 * yq + doy)
    (hc : 0 ≤ cent ∧ cent ≤ 3) (hq : 0 ≤ quad ∧ quad ≤ 24)
    (hy : 0 ≤ yq ∧ yq ≤ 3) (hdoy : 0 ≤ doy ∧ doy ≤ 365)
    (hmp : 0 ≤ mp ∧ mp ≤ 11)
    (hm : m = if mp < 10 then mp + 3 else mp - 9)
    (hd : d = doy - monthStartDoy mp + 1)
    (hyy : y = era * 400 + 100 * cent + 4 * quad + yq + (if m ≤ 2 then 1 else 0)) :
    daysFromCivil y m d = z := by
  unfold monthStartDoy at hd
  by_cases hsplit : mp < 10
  · rw [if_pos hsplit] at hm
    have hm2 : ¬ (m ≤ 2) := by omega
    rw [if_neg hm2] at hyy
    rw [daysFromCivil_eq_of_gt y m d hm2]
    unfold monthStartDoy
    omega
  · rw [if_neg hsplit] at hm
    have hm2 : m ≤ 2 := by omega
    rw [if_pos hm2] at hyy
    rw [daysFromCivil_eq_of_le y m d hm2]
    unfold monthStartDoy
    omega

/-- Day-number-to-civil conversion always yields a valid Gregorian date, and
`daysFromCivil` takes it back to the same day number. -/
theorem civilFromDays_valid_inv (z : Int) :
    validYmd (cfdY z) (cfdM z) (cfdD z) ∧ daysFromCivil (cfdY z) (cfdM z) (cfdD z) = z := by
  obtain ⟨hz, hc0, hc1, hq0, hq1, hy0, hy1, hd0, hd1, hleap⟩ := cfd_decomp z
  obtain ⟨hmp0, hmp1⟩ := monthFromDoy_range (cfdDoy z) hd0 hd1
  obtain ⟨hs1, hs2⟩ := monthFromDoy_spec (cfdDoy z) hd0 hd1
  obtain ⟨hml1, hml2, hml3, hml4⟩ := mLenShift_bounds (monthFromDoy (cfdDoy z)) hmp0 hmp1
  have hmp_def : cfdMp z = monthFromDoy (cfdDoy z) := rfl
  have hinv : daysFromCivil (cfdY z) (cfdM z) (cfdD z) = z := by
    refine daysFromCivil_assemble z (cfdEra z) (cfdCent z) (cfdQuad z) (cfdYq z)
      (cfdDoy z) (cfdMp z) (cfdM z) (cfdD z) (cfdY z) hz ⟨hc0, hc1⟩ ⟨hq0, hq1⟩
      ⟨hy0, hy1⟩ ⟨hd0, hd1⟩ ⟨?_, ?_⟩ rfl rfl ?_
    · rw [hmp_def]; exact hmp0
    · rw [hmp_def]; exact hmp1
    · unfold cfdY cfdYoe; ring
  refine ⟨⟨?_, ?_, ?_, ?_⟩, hinv⟩
  · unfold cfdM; rw [hmp_def]; split_ifs <;> omega
  · unfold cfdM; rw [hmp_def]; split_ifs <;> omega
  · unfold cfdD; rw [hmp_def]; omega
  · -- d ≤ daysInMonth: the only subtle month is February (mp = 11)
    have hdle : cfdD z ≤ mLenShift (monthFromDoy (cfdDoy z)) := by
      unfold cfdD; rw [hmp_def]; omega
    by_cases hfeb : cfdM z = 2
    · rw [hfeb]
      have hmp11 : monthFromDoy (cfdDoy z) = 11 := by
        unfold cfdM at hfeb; rw [hmp_def] at hfeb; split_ifs at hfeb <;> omega
      rw [hmp11] at hdle hs1 hs2 hml1 hml2 hml3 hml4
      unfold mLenShift at hdle
      rw [if_pos rfl] at hdle
      unfold daysInMonth
      rw [if_pos rfl]
      by_cases hL : isGregLeap (cfdY z)
      · rw [if_pos hL]; exact hdle
      · rw [if_neg hL]
        -- if d were 29, doy would be 365 and the year would be a leap year
        by_contra hgt
        have hd29 : cfdD z = 29 := by omega
        have hdoy365 : cfdDoy z = 365 := by
          unfold cfdD at hd29
          rw [hmp_def, hmp11] at hd29
          unfold monthStartDoy at hd29
          omega
        obtain ⟨hyq3, hqc⟩ := hleap hdoy365
        have hyval : cfdY z = cfdEra z * 400 + 100 * cfdCent z + 4 * cfdQuad z +
            cfdYq z + 1 := by
          unfold cfdY cfdYoe
          rw [hfeb]
          norm_num
          ring
        unfold isGregLeap at hL
        omega
    · -- all other months have the same length as their shifted slot
      have hmlen : mLenShift (monthFromDoy (cfdDoy z)) ≤ daysInMonth (cfdY z) (cfdM z) := by
        unfold cfdM at hfeb ⊢
        rw [hmp_def] at hfeb ⊢
        unfold daysInMonth mLenShift monthStartDoy
        split_ifs <;> omega
      omega

/-- Civil-to-day-number round trip on valid Gregorian dates. -/
theorem civilFromDays_daysFromCivil (y m d : Int) (h : validYmd y m d) :
    civilFromDays (daysFromCivil y m d) = (y, m, d) := by
  obtain ⟨hm1, hm2, hd1, hd2⟩ := h
  have hd31 : d ≤ 31 := by
    unfold daysInMonth at hd2; split_ifs at hd2 <;> omega
  have hdFeb : m = 2 → d ≤ 29 := by
    intro hf; unfold daysInMonth at hd2; split_ifs at hd2 <;> omega
  by_cases hc2 : m ≤ 2
  · -- January / February: shifted month mp = m + 9, year shifted down by 1
    have hz0 := daysFromCivil_eq_of_le y m d hc2
    have hstart : monthStartDoy (m + 9) = if m = 1 then 306 else 337 := by
      unfold monthStartDoy; split_ifs <;> omega
    have hdoyr : 0 ≤ monthStartDoy (m + 9) + d - 1 ∧
        monthStartDoy (m + 9) + d - 1 ≤ 365 := by
      rw [hstart]
      split_ifs with h1
      · omega
      · have := hdFeb (by omega)
        omega
    have hleap : monthStartDoy (m + 9) + d - 1 = 365 →
        (y - 1) % 400 % 100 % 4 = 3 ∧
        ((y - 1) % 400 % 100 / 4 ≠ 24 ∨ (y - 1) % 400 / 100 = 3) := by
      intro h365
      rw [hstart] at h365
      have hm2' : m = 2 := by split_ifs at h365 <;> omega
      have hd29 : d = 29 := by rw [if_neg (by omega : ¬ m = 1)] at h365; omega
      have hleapy : isGregLeap y := by
        rw [hm2', hd29] at hd2
        unfold daysInMonth at hd2
        rw [if_pos rfl] at hd2
        by_contra hno
        rw [if_neg hno] at hd2
        omega
      unfold isGregLeap at hleapy
      omega
    obtain ⟨he1, he2, he3, he4, he5⟩ := civilFromDays_assemble (daysFromCivil y m d)
      ((y - 1) / 400) ((y - 1) % 400 / 100) ((y - 1) % 400 % 100 / 4)
      ((y - 1) % 400 % 100 % 4) (monthStartDoy (m + 9) + d - 1)
      (by rw [hz0]; omega) (by omega) (by omega) (by omega) hdoyr hleap
    have hdim : d ≤ mLenShift (m + 9) := by
      have := d_le_mLenShift y m d hm1 hm2 hd2
      rw [if_pos hc2] at this
      exact this
    have hmpz : cfdMp (daysFromCivil y m d) = m + 9 := by
      unfold cfdMp
      rw [he5]
      exact monthFromDoy_inv (m + 9) d (by omega) (by omega) hd1 hdim
    have hMz : cfdM (daysFromCivil y m d) = m := by
      unfold cfdM
      rw [hmpz]
      split_ifs <;> omega
    have hDz : cfdD (daysFromCivil y m d) = d := by
      unfold cfdD
      rw [hmpz, he5]
      ring
    have hYz : cfdY (daysFromCivil y m d) = y := by
      unfold cfdY cfdYoe
      rw [hMz, he1, he2, he3, he4, if_pos hc2]
      omega
    unfold civilFromDays
    rw [hMz, hDz, hYz]
  · -- March onwards: shifted month mp = m - 3, same year
    have hz0 := daysFromCivil_eq_of_gt y m d hc2
    have hstart : 0 ≤ monthStartDoy (m - 3) ∧ monthStartDoy (m - 3) ≤ 275 := by
      unfold monthStartDoy; omega
    have hdoyr : 0 ≤ monthStartDoy (m - 3) + d - 1 ∧
        monthStartDoy (m - 3) + d - 1 ≤ 365 := by omega
    have hleap : monthStartDoy (m - 3) + d - 1 = 365 →
        (y - 0) % 400 % 100 % 4 = 3 ∧
        ((y - 0) % 400 % 100 / 4 ≠ 24 ∨ (y - 0) % 400 / 100 = 3) := by
      intro h365; omega
    obtain ⟨he1, he2, he3, he4, he5⟩ := civilFromDays_assemble (daysFromCivil y m d)
      ((y - 0) / 400) ((y - 0) % 400 / 100) ((y - 0) % 400 % 100 / 4)
      ((y - 0) % 400 % 100 % 4) (monthStartDoy (m - 3) + d - 1)
      (by rw [hz0]; omega) (by omega) (by omega) (by omega) hdoyr hleap
    have hdim : d ≤ mLenShift (m - 3) := by
      have := d_le_mLenShift y m d hm1 hm2 hd2
      rw [if_neg hc2] at this
      exact this
    have hmpz : cfdMp (daysFromCivil y m d) = m - 3 := by
      unfold cfdMp
      rw [he5]
      exact monthFromDoy_inv (m - 3) d (by omega) (by omega) hd1 hdim
    have hMz : cfdM (daysFromCivil y m d) = m := by
      unfold cfdM
      rw [hmpz]
      split_ifs <;> omega
    have hDz : cfdD (daysFromCivil y m d) = d := by
      unfold cfdD
      rw [hmpz, he5]
      ring
    have hYz : cfdY (daysFromCivil y m d) = y := by
      unfold cfdY cfdYoe
      rw [hMz, he1, he2, he3, he4, if_neg hc2]
      omega
    unfold civilFromDays
    rw [hMz, hDz, hYz]

/-! ## Calendar records and the seconds view

Modelled from the spec: a calendar record (the shape shared by the OS's
`SYSTEMTIME` exchange value and the external naive date-time's accessors):
year / 1-based month / day / hour / minute / second.  `fieldsToSeconds`
interprets a record as UTC seconds since the Unix epoch;
`secondsToFields` is its inverse.  (The OS record's day-of-week and
millisecond members are not modelled: the resolver never reads them and
always leaves them zero.) -/

structure Fields where
  year : Int
  month : Int
  day : Int
  hour : Int
  minute : Int
  second : Int
deriving DecidableEq

/-- Seconds since the Unix epoch of a calendar record read as UTC. -/
def fieldsToSeconds (f : Fields) : Int :=
  daysFromCivil f.year f.month f.day * 86400 +
    f.hour * 3600 + f.minute * 60 + f.second

/-- Calendar record (read as UTC) of a seconds-since-epoch value. -/
def secondsToFields (s : Int) : Fields :=
  { year := cfdY (s / 86400), month := cfdM (s / 86400), day := cfdD (s / 86400),
    hour := s % 86400 / 3600, minute := s % 86400 % 3600 / 60,
    second := s % 86400 % 60 }

/-- Valid time-of-day parts of a record. -/
def validTime (f : Fields) : Prop :=
  0 ≤ f.hour ∧ f.hour ≤ 23 ∧ 0 ≤ f.minute ∧ f.minute ≤ 59 ∧
    0 ≤ f.second ∧ f.second ≤ 59

instance (f : Fields) : Decidable (validTime f) := by unfold validTime; infer_instance

/-- Fully valid calendar record (date and time-of-day). -/
def validFields (f : Fields) : Prop := validYmd f.year f.month f.day ∧ validTime f

instance (f : Fields) : Decidable (validFields f) := by unfold validFields; infer_instance

theorem secondsToFields_valid (s : Int) : validFields (secondsToFields s) := by
  obtain ⟨hv, _⟩ := civilFromDays_valid_inv (s / 86400)
  unfold secondsToFields validFields validTime
  refine ⟨hv, ?_⟩
  simp only []
  omega

theorem fieldsToSeconds_secondsToFields (s : Int) :
    fieldsToSeconds (secondsToFields s) = s := by
  obtain ⟨_, hinv⟩ := civilFromDays_valid_inv (s / 86400)
  unfold fieldsToSeconds secondsToFields
  simp only []
  rw [hinv]
  omega

theorem secondsToFields_fieldsToSeconds (f : Fields) (h : validFields f) :
    secondsToFields (fieldsToSeconds f) = f := by
  obtain ⟨hymd, htime⟩ := h
  unfold validTime at htime
  have hdays : fieldsToSeconds f / 86400 = daysFromCivil f.year f.month f.day := by
    unfold fieldsToSeconds; omega
  have hrem : fieldsToSeconds f % 86400 =
      f.hour * 3600 + f.minute * 60 + f.second := by
    unfold fieldsToSeconds; omega
  have htriple := civilFromDays_daysFromCivil f.year f.month f.day hymd
  unfold civilFromDays at htriple
  simp only [Prod.mk.injEq] at htriple
  obtain ⟨hY, hM, hD⟩ := htriple
  obtain ⟨year, month, day, hour, minute, second⟩ := f
  unfold secondsToFields
  simp only [Fields.mk.injEq] at *
  refine ⟨?_, ?_, ?_, ?_, ?_, ?_⟩
  · rw [hdays]; exact hY
  · rw [hdays]; exact hM
  · rw [hdays]; exact hD
  · rw [hrem]; omega
  · rw [hrem]; omega
  · rw [hrem]; omega

/-! ## The day-of-year helper from `windows.rs` -/

/-- The pure function `yday` from `windows.rs`, translated line by line.
Rust `i32` division and remainder truncate toward zero, hence
`Int.tdiv`/`Int.tmod`. -/
def yday (year month day : Int) : Int :=
  let leap := if 2 < month then (if Int.tmod year 4 = 0 then 1 else 2) else 0
  let july := if 7 < month then 1 else 0
  (month - 1) * 30 + Int.tdiv month 2 + (day - 1) - leap + july

/-- The conventional 0-based day-of-year count, from the spec's words: the
cumulative number of days of the preceding months (with February's leap day
counted in leap years) plus the 0-based day of the month. -/
def dayOfYearRef (y m d : Int) : Int :=
  (if m ≤ 1 then 0 else if m = 2 then 31 else if m = 3 then 59 else if m = 4 then 90
   else if m = 5 then 120 else if m = 6 then 151 else if m = 7 then 181
   else if m = 8 then 212 else if m = 9 then 243 else if m = 10 then 273
   else if m = 11 then 304 else 334) +
  (if 3 ≤ m ∧ isGregLeap y then 1 else 0) + (d - 1)

/-- The formula that claim C3 ascribes to `yday`: base
`(month-1)*30 + month/2 + (day-1)`, minus 1 after February in years *not*
divisible by 4, minus 2 after February in years divisible by 4, plus 1
after July. -/
def ydayC3Formula (year month day : Int) : Int :=
  (month - 1) * 30 + Int.tdiv month 2 + (day - 1) -
    (if 2 < month then (if Int.tmod year 4 = 0 then 2 else 1) else 0) +
    (if 7 < month then 1 else 0)

/-! ## `windows_sys` model: `WinFileTime` and the OS environment -/

/-- `HECTONANOSECS_IN_SEC` from `windows_sys/mod.rs`. -/
def HECTONANOSECS_IN_SEC : Int := 10000000

/-- `HECTONANOSEC_TO_UNIX_EPOCH` from `windows_sys/mod.rs`:
`11_644_473_600 * HECTONANOSECS_IN_SEC`. -/
def HECTONANOSEC_TO_UNIX_EPOCH : Int := 11644473600 * HECTONANOSECS_IN_SEC

/-- The `FILETIME` pair held by `WinFileTime` (two `u32` words). -/
structure WinFileTime where
  dwLowDateTime : Int
  dwHighDateTime : Int
deriving DecidableEq

/-- `WinFileTime::from_seconds`: scale to 100 ns ticks, add the fixed
1601-to-1970 epoch offset (wrapping `i64` arithmetic followed by an
`as u64` cast, as in the source) and split into two 32-bit words. -/
def WinFileTime.from_seconds (sec : Int) : WinFileTime :=
  let t := u64wrap (i64wrap (sec * HECTONANOSECS_IN_SEC + HECTONANOSEC_TO_UNIX_EPOCH))
  { dwLowDateTime := u32wrap t, dwHighDateTime := u32wrap (t / 4294967296) }

/-- `WinFileTime::as_u64`: `((high as u64) << 32) | (low as u64)`; with both
words reduced to 32 bits the bitwise-or is the sum. -/
def WinFileTime.as_u64 (ft : WinFileTime) : Int :=
  u64wrap (u32wrap ft.dwHighDateTime * 4294967296 + u32wrap ft.dwLowDateTime)

/-- `WinFileTime::as_unix_seconds`: `((t as i64) - HECTONANOSEC_TO_UNIX_EPOCH)
/ HECTONANOSECS_IN_SEC` with wrapping `i64` subtraction and truncating
division. -/
def WinFileTime.as_unix_seconds (ft : WinFileTime) : Int :=
  Int.tdiv (i64wrap (i64ofU64 ft.as_u64 - HECTONANOSEC_TO_UNIX_EPOCH))
    HECTONANOSECS_IN_SEC

/-- Round trip of the tick arithmetic whenever the tick value is a
representable (non-negative, below `2^63`) tick count. -/
theorem filetime_roundtrip (sec : Int)
    (h0 : 0 ≤ sec * HECTONANOSECS_IN_SEC + HECTONANOSEC_TO_UNIX_EPOCH)
    (h1 : sec * HECTONANOSECS_IN_SEC + HECTONANOSEC_TO_UNIX_EPOCH <
      9223372036854775808) :
    (WinFileTime.from_seconds sec).as_unix_seconds = sec := by
  unfold HECTONANOSEC_TO_UNIX_EPOCH HECTONANOSECS_IN_SEC at h0 h1
  have e3 : WinFileTime.from_seconds sec =
      { dwLowDateTime := u32wrap (sec * 10000000 + 11644473600 * 10000000),
        dwHighDateTime :=
          u32wrap ((sec * 10000000 + 11644473600 * 10000000) / 4294967296) } := by
    unfold WinFileTime.from_seconds HECTONANOSEC_TO_UNIX_EPOCH HECTONANOSECS_IN_SEC
    have e1 : i64wrap (sec * 10000000 + 11644473600 * 10000000) =
        sec * 10000000 + 11644473600 * 10000000 := by unfold i64wrap; omega
    have e2 : u64wrap (sec * 10000000 + 11644473600 * 10000000) =
        sec * 10000000 + 11644473600 * 10000000 := by unfold u64wrap; omega
    rw [e1, e2]
  unfold WinFileTime.as_unix_seconds
  rw [e3]
  have e4 : WinFileTime.as_u64
      { dwLowDateTime := u32wrap (sec * 10000000 + 11644473600 * 10000000),
        dwHighDateTime :=
          u32wrap ((sec * 10000000 + 11644473600 * 10000000) / 4294967296) } =
      sec * 10000000 + 11644473600 * 10000000 := by
    unfold WinFileTime.as_u64
    dsimp only
    unfold u64wrap u32wrap
    generalize hG : sec * 10000000 + 11644473600 * 10000000 = T at h0 h1 ⊢
    have a1 : T / 4294967296 % 4294967296 % 4294967296 = T / 4294967296 := by omega
    have a2 : T % 4294967296 % 4294967296 = T % 4294967296 := by omega
    rw [a1, a2]
    omega
  rw [e4]
  have e5 : i64ofU64 (sec * 10000000 + 11644473600 * 10000000) =
      sec * 10000000 + 11644473600 * 10000000 := by
    unfold i64ofU64
    rw [if_pos h1]
  rw [e5]
  have e6 : i64wrap (sec * 10000000 + 11644473600 * 10000000 -
      HECTONANOSEC_TO_UNIX_EPOCH) = sec * 10000000 := by
    unfold i64wrap HECTONANOSEC_TO_UNIX_EPOCH HECTONANOSECS_IN_SEC
    omega
  rw [e6]
  unfold HECTONANOSECS_IN_SEC
  exact Int.mul_tdiv_cancel sec (by norm_num)

/-! ## OS environment and the modelled OS calls -/

/-- Modelled from the spec: validity required of a `SYSTEMTIME` record by
the OS conversions — genuine Gregorian calendar fields, second at most 59
(the OS representation has no leap-second slot) and a year inside the
modelled OS range. -/
def validRec (f : Fields) : Prop :=
  validFields f ∧ 1601 ≤ f.year ∧ f.year ≤ 9999

instance (f : Fields) : Decidable (validRec f) := by unfold validRec; infer_instance

/-- Modelled from the spec: the ambient OS time-zone state for one resolver
call.  `offAt s` is the UTC offset (seconds east) the OS applies when
converting the UTC instant `s` to local time; `localToUtc` is the OS's
partial (gap-failing) local-record-to-UTC-record conversion; `bias` and
`standardBias` are the minutes reported by `GetTimeZoneInformation`, and
`tzOk` tells whether that call succeeds. -/
structure OsEnv where
  offAt : Int → Int
  localToUtc : Fields → Option Fields
  bias : Int
  standardBias : Int
  tzOk : Bool

/-- Modelled from the spec: `SystemTimeToFileTime` — fails unless the record
is a valid OS calendar record; otherwise pure Gregorian arithmetic down to
ticks. -/
def systemTimeToFileTime (f : Fields) : Option WinFileTime :=
  if validRec f then some (WinFileTime.from_seconds (fieldsToSeconds f)) else none

/-- Modelled from the spec: `FileTimeToSystemTime` — fails if the tick count
falls outside the modelled OS range, else the Gregorian calendar record. -/
def fileTimeToSystemTime (ft : WinFileTime) : Option Fields :=
  let f := secondsToFields ft.as_unix_seconds
  if 1601 ≤ f.year ∧ f.year ≤ 9999 then some f else none

/-- Modelled from the spec: `SystemTimeToTzSpecificLocalTime` — shift a valid
UTC record by the zone offset in effect at that instant. -/
def systemTimeToTzSpecificLocalTime (env : OsEnv) (f : Fields) : Option Fields :=
  if validRec f then
    some (secondsToFields (fieldsToSeconds f + env.offAt (fieldsToSeconds f)))
  else none

/-- Modelled from the spec: `TzSpecificLocalTimeToSystemTime` — the OS's
partial local-to-UTC conversion, supplied by the environment. -/
def tzSpecificLocalTimeToSystemTime (env : OsEnv) (f : Fields) : Option Fields :=
  env.localToUtc f

/-! ## External calendar/time value types

Modelled from the spec (these belong to the surrounding library, outside
this core): validated date and time-of-day values with fallible
constructors, the fixed-offset type, the aware date-time and the three-way
resolution result. -/

/-- The three-way resolution result (`LocalResult` of the external library). -/
inductive LocalResult (α : Type) where
  | Single : α → LocalResult α
  | Ambiguous : α → α → LocalResult α
  | None : LocalResult α
deriving DecidableEq

/-- Modelled from the spec: the external library's validated date value. -/
structure NaiveDate where
  year : Int
  month : Int
  day : Int
deriving DecidableEq

/-- Modelled from the spec: `NaiveDate::from_ymd_opt` accepts exactly the
valid proleptic-Gregorian dates. -/
def NaiveDate.from_ymd_opt (y m d : Int) : Option NaiveDate :=
  if validYmd y m d then some ⟨y, m, d⟩ else none

/-- Modelled from the spec: the external library's validated time-of-day
value; a nanosecond field of `1_000_000_000` or more encodes a leap
second. -/
structure NaiveTime where
  hour : Int
  minute : Int
  second : Int
  nano : Int
deriving DecidableEq

/-- Modelled from the spec: `NaiveTime::from_hms_nano_opt` — hour `0..=23`,
minute and second `0..=59`, nanosecond `0..=1_999_999_999`. -/
def NaiveTime.from_hms_nano_opt (h mi s n : Int) : Option NaiveTime :=
  if 0 ≤ h ∧ h ≤ 23 ∧ 0 ≤ mi ∧ mi ≤ 59 ∧ 0 ≤ s ∧ s ≤ 59 ∧
      0 ≤ n ∧ n ≤ 1999999999
  then some ⟨h, mi, s, n⟩ else none

/-- Modelled from the spec: a UTC offset in seconds, east-positive. -/
structure FixedOffset where
  localMinusUtc : Int
deriving DecidableEq

/-- Modelled from the spec: `FixedOffset::east_opt` accepts offsets strictly
between `-86400` and `86400` seconds. -/
def FixedOffset.east_opt (secs : Int) : Option FixedOffset :=
  if -86400 < secs ∧ secs < 86400 then some ⟨secs⟩ else none

/-- Modelled from the spec: the external naive date-time value — calendar
fields plus the nanosecond field. -/
structure NaiveDT where
  f : Fields
  nano : Int
deriving DecidableEq

/-- Modelled from the spec: validity of a naive date-time as the external
library guarantees it — a valid Gregorian date, in-range time-of-day
(second at most 59; a leap second is encoded by `nano ≥ 1_000_000_000`)
and nanosecond below `2_000_000_000`. -/
def validNaive (d : NaiveDT) : Prop :=
  validFields d.f ∧ 0 ≤ d.nano ∧ d.nano ≤ 1999999999

instance (d : NaiveDT) : Decidable (validNaive d) := by unfold validNaive; infer_instance

/-- Shift a naive date-time by a number of seconds (the external library's
exact date-time arithmetic); the sub-second part is untouched. -/
def NaiveDT.addSeconds (t : NaiveDT) (z : Int) : NaiveDT :=
  { f := secondsToFields (fieldsToSeconds t.f + z), nano := t.nano }

/-- `date.and_time(time)` of the external library. -/
def NaiveDate.and_time (date : NaiveDate) (time : NaiveTime) : NaiveDT :=
  { f := { year := date.year, month := date.month, day := date.day,
           hour := time.hour, minute := time.minute, second := time.second },
    nano := time.nano }

/-- `naive - offset` of the external library. -/
def NaiveDT.subOffset (t : NaiveDT) (off : FixedOffset) : NaiveDT :=
  t.addSeconds (-off.localMinusUtc)

/-- Modelled from the spec: the external aware date-time — a naive UTC
instant paired with its UTC offset. -/
structure DateTime where
  datetime : NaiveDT
  offset : FixedOffset
deriving DecidableEq

/-- `DateTime::from_utc`. -/
def DateTime.from_utc (ndt : NaiveDT) (off : FixedOffset) : DateTime :=
  { datetime := ndt, offset := off }

/-- The local view of an aware date-time — what the external library's
year/month/day/hour/minute/second/nanosecond accessors present. -/
def DateTime.naiveLocal (dt : DateTime) : NaiveDT :=
  dt.datetime.addSeconds dt.offset.localMinusUtc

/-! ## The resolver from `windows.rs` -/

/-- The `Tm` broken-down value from `windows.rs` (all fields `i32`). -/
structure Tm where
  tm_sec : Int
  tm_min : Int
  tm_hour : Int
  tm_mday : Int
  tm_mon : Int
  tm_year : Int
  tm_wday : Int
  tm_yday : Int
  tm_isdst : Int
  tm_utcoff : Int
  tm_nsec : Int
deriving DecidableEq

/-- `Tm::default()`: all fields zero. -/
def Tm.default : Tm := ⟨0, 0, 0, 0, 0, 0, 0, 0, 0, 0, 0⟩

/-- `Timespec` from `windows.rs`. -/
structure Timespec where
  sec : Int
  nsec : Int
deriving DecidableEq

/-- `Tm::as_system_time`: copy the fields into a `SYSTEMTIME`, with the
source's `as u16` casts.  (The source also copies `tm_wday` into the
record's day-of-week member, which no modelled conversion reads.) -/
def Tm.as_system_time (tm : Tm) : Fields :=
  { year := u16wrap (tm.tm_year + 1900), month := u16wrap (tm.tm_mon + 1),
    day := u16wrap tm.tm_mday, hour := u16wrap tm.tm_hour,
    minute := u16wrap tm.tm_min, second := u16wrap tm.tm_sec }

/-- `Tm::utc_to_time`: `SYSTEMTIME` → `FILETIME` → Unix seconds. -/
def Tm.utc_to_time (tm : Tm) : Option Int :=
  match systemTimeToFileTime tm.as_system_time with
  | some ft => some ft.as_unix_seconds
  | none => none

/-- `Tm::local_to_time`: local `SYSTEMTIME` → UTC `SYSTEMTIME` → `FILETIME`
→ Unix seconds. -/
def Tm.local_to_time (env : OsEnv) (tm : Tm) : Option Int :=
  match tzSpecificLocalTimeToSystemTime env tm.as_system_time with
  | none => none
  | some utc =>
    match systemTimeToFileTime utc with
    | some ft => some ft.as_unix_seconds
    | none => none

/-- `Tm::update_from_system_time`.  (The source also copies the record's
day-of-week member into `tm_wday`; the day-of-week is not modelled — no
consumer reads `tm_wday` — so it is set to 0 here.) -/
def Tm.update_from_system_time (tm : Tm) (sys : Fields) : Tm :=
  { tm with
      tm_sec := sys.second, tm_min := sys.minute, tm_hour := sys.hour,
      tm_mday := sys.day, tm_wday := 0, tm_mon := sys.month - 1,
      tm_year := sys.year - 1900,
      tm_yday := yday (sys.year - 1900) (sys.month - 1 + 1) sys.day }

/-- `Tm::update_from_seconds`: seconds → `FILETIME` → UTC `SYSTEMTIME` →
local `SYSTEMTIME` → fields, then re-derive the offset via the local-record
round trip, query the time zone and set the DST flag.  `none` models an
`Err` return. -/
def Tm.update_from_seconds (env : OsEnv) (tm : Tm) (sec : Int) : Option Tm :=
  match fileTimeToSystemTime (WinFileTime.from_seconds sec) with
  | none => none
  | some utc =>
    match systemTimeToTzSpecificLocalTime env utc with
    | none => none
    | some localRec =>
      let tm1 := tm.update_from_system_time localRec
      match systemTimeToFileTime localRec with
      | none => none
      | some local_filetime =>
        let local_sec := local_filetime.as_unix_seconds
        if env.tzOk then
          let tm2 := { tm1 with tm_utcoff := i32wrap (local_sec - sec) }
          some { tm2 with
                   tm_isdst :=
                     if tm2.tm_utcoff = -60 * (env.bias + env.standardBias) then 0
                     else 1 }
        else none

/-- `Tm::from_timespec`; `none` models the panic of the `.unwrap()` on
`update_from_seconds`. -/
def Tm.from_timespec (env : OsEnv) (timespec : Timespec) : Option Tm :=
  match Tm.update_from_seconds env Tm.default timespec.sec with
  | none => none
  | some tm => some { tm with tm_nsec := timespec.nsec }

/-- `Timespec::local` (named `localTm` here: `local` is reserved). -/
def Timespec.localTm (env : OsEnv) (t : Timespec) : Option Tm :=
  Tm.from_timespec env t

/-- `tm_to_datetime` from `windows.rs`.  `none` models a panic (the two
`.unwrap()` calls); `some` carries the returned `LocalResult`. -/
def tm_to_datetime (tm : Tm) : Option (LocalResult DateTime) :=
  let tm1 :=
    if 60 ≤ tm.tm_sec then
      { tm with
          tm_nsec :=
            i32wrap (tm.tm_nsec + i32wrap (i32wrap (tm.tm_sec - 59) * 1000000000)),
          tm_sec := 59 }
    else tm
  match NaiveDate.from_ymd_opt (i32wrap (tm1.tm_year + 1900))
      (u32wrap (u32wrap tm1.tm_mon + 1)) (u32wrap tm1.tm_mday) with
  | none => none
  | some date =>
    match NaiveTime.from_hms_nano_opt (u32wrap tm1.tm_hour) (u32wrap tm1.tm_min)
        (u32wrap tm1.tm_sec) (u32wrap tm1.tm_nsec) with
    | some time =>
      match FixedOffset.east_opt tm1.tm_utcoff with
      | none => none
      | some offset =>
        some (LocalResult.Single
          (DateTime.from_utc ((date.and_time time).subOffset offset) offset))
    | none => some LocalResult.None

/-- The `Tm` literal built at the top of `naive_to_local`. -/
def naiveToTm (d : NaiveDT) (localFlag : Bool) : Tm :=
  { tm_sec := d.f.second, tm_min := d.f.minute, tm_hour := d.f.hour,
    tm_mday := d.f.day, tm_mon := d.f.month - 1, tm_year := d.f.year - 1900,
    tm_wday := 0, tm_yday := 0, tm_isdst := -1,
    tm_utcoff := if localFlag then 1 else 0, tm_nsec := 0 }

/-- `naive_to_local` from `windows.rs`.  `none` models a panic (the
`.unwrap()` inside `Tm::from_timespec`, or the `assert_eq!` failing);
`some` carries the returned `LocalResult`. -/
def naive_to_local (env : OsEnv) (d : NaiveDT) (localFlag : Bool) :
    Option (LocalResult DateTime) :=
  let tm := naiveToTm d localFlag
  match if localFlag then tm.local_to_time env else tm.utc_to_time with
  | none => some LocalResult.None
  | some sec =>
    let spec : Timespec := { sec := sec, nsec := tm.tm_nsec }
    match Timespec.localTm env spec with
    | none => none
    | some tmL =>
      if tmL.tm_nsec = 0 then
        tm_to_datetime { tmL with tm_nsec := i32wrap d.nano }
      else none

/-! ## Small-value cast lemmas and range bounds -/

theorem u16wrap_small (x : Int) (h0 : 0 ≤ x) (h1 : x ≤ 65535) : u16wrap x = x := by
  unfold u16wrap; omega

theorem u32wrap_small (x : Int) (h0 : 0 ≤ x) (h1 : x ≤ 4294967295) : u32wrap x = x := by
  unfold u32wrap; omega

theorem i32wrap_small (x : Int) (h0 : -2147483648 ≤ x) (h1 : x ≤ 2147483647) :
    i32wrap x = x := by
  unfold i32wrap; omega

/-- Seconds range of a record inside the modelled OS year range; the lower
end is exactly 1601-01-01T00:00:00, i.e. tick zero. -/
theorem fieldsToSeconds_range (f : Fields) (h : validRec f) :
    -11644473600 ≤ fieldsToSeconds f ∧ fieldsToSeconds f ≤ 260000000000 := by
  obtain ⟨⟨⟨hm1, hm2, hd1, hd2⟩, ht⟩, hy1, hy2⟩ := h
  have hd31 : f.day ≤ 31 := by unfold daysInMonth at hd2; split_ifs at hd2 <;> omega
  unfold validTime at ht
  unfold fieldsToSeconds
  by_cases hc2 : f.month ≤ 2
  · rw [daysFromCivil_eq_of_le _ _ _ hc2]
    unfold monthStartDoy
    omega
  · rw [daysFromCivil_eq_of_gt _ _ _ hc2]
    unfold monthStartDoy
    omega

/-- Tick round trip on the wider range used by the resolver pipeline
(`|sec| ≤ 9 * 10^11`, comfortably inside the wrap-free window). -/
theorem filetime_roundtrip_wide (sec : Int) (h0 : -900000000000 ≤ sec)
    (h1 : sec ≤ 900000000000) :
    (WinFileTime.from_seconds sec).as_unix_seconds = sec := by
  by_cases hs : 0 ≤ sec * 10000000 + 11644473600 * 10000000
  · refine filetime_roundtrip sec ?_ ?_ <;>
      unfold HECTONANOSEC_TO_UNIX_EPOCH HECTONANOSECS_IN_SEC <;> omega
  · have e3 : WinFileTime.from_seconds sec =
        { dwLowDateTime :=
            u32wrap (sec * 10000000 + 11644473600 * 10000000 + 18446744073709551616),
          dwHighDateTime :=
            u32wrap ((sec * 10000000 + 11644473600 * 10000000 + 18446744073709551616) /
              4294967296) } := by
      unfold WinFileTime.from_seconds HECTONANOSEC_TO_UNIX_EPOCH HECTONANOSECS_IN_SEC
      have e1 : i64wrap (sec * 10000000 + 11644473600 * 10000000) =
          sec * 10000000 + 11644473600 * 10000000 := by unfold i64wrap; omega
      have e2 : u64wrap (sec * 10000000 + 11644473600 * 10000000) =
          sec * 10000000 + 11644473600 * 10000000 + 18446744073709551616 := by
        unfold u64wrap; omega
      rw [e1, e2]
    unfold WinFileTime.as_unix_seconds
    rw [e3]
    have e4 : WinFileTime.as_u64
        { dwLowDateTime :=
            u32wrap (sec * 10000000 + 11644473600 * 10000000 + 18446744073709551616),
          dwHighDateTime :=
            u32wrap ((sec * 10000000 + 11644473600 * 10000000 + 18446744073709551616) /
              4294967296) } =
        sec * 10000000 + 11644473600 * 10000000 + 18446744073709551616 := by
      unfold WinFileTime.as_u64
      dsimp only
      unfold u64wrap u32wrap
      generalize hG : sec * 10000000 + 11644473600 * 10000000 + 18446744073709551616 = T
        at hs ⊢
      have hT0 : 9223372036854775808 ≤ T := by omega
      have hT1 : T < 18446744073709551616 := by omega
      have a1 : T / 4294967296 % 4294967296 % 4294967296 = T / 4294967296 := by omega
      have a2 : T % 4294967296 % 4294967296 = T % 4294967296 := by omega
      rw [a1, a2]
      omega
    rw [e4]
    have e5 : i64ofU64 (sec * 10000000 + 11644473600 * 10000000 + 18446744073709551616) =
        sec * 10000000 + 11644473600 * 10000000 := by
      unfold i64ofU64
      rw [if_neg (by omega)]
      ring
    rw [e5]
    have e6 : i64wrap (sec * 10000000 + 11644473600 * 10000000 -
        HECTONANOSEC_TO_UNIX_EPOCH) = sec * 10000000 := by
      unfold i64wrap HECTONANOSEC_TO_UNIX_EPOCH HECTONANOSECS_IN_SEC
      omega
    rw [e6]
    unfold HECTONANOSECS_IN_SEC
    exact Int.mul_tdiv_cancel sec (by norm_num)

/-! ## Claim-level reference definitions and helpers -/

/-- Modelled from the spec: the leap-second normalization step exactly as the
spec words it — if the input's second field equals 60, clamp it to 59 and add
`(original_second - 59) * 1_000_000_000` nanoseconds. -/
def normalize_leap (d : NaiveDT) : NaiveDT :=
  if d.f.second = 60 then
    { f := { d.f with second := 59 },
      nano := d.nano + (d.f.second - 59) * 1000000000 }
  else d

/-- Project the `Single` payload out of a resolver result. -/
def singleDT : Option (LocalResult DateTime) → Option DateTime
  | some (LocalResult.Single dt) => some dt
  | _ => none

/-- The absolute instant of an aware date-time, in nanoseconds since the
epoch (UTC fields scaled to nanoseconds plus the nanosecond remainder). -/
def instantNanos (dt : DateTime) : Int :=
  fieldsToSeconds dt.datetime.f * 1000000000 + dt.datetime.nano

/-! ## Claims C2 and C3: the `yday` formula -/

/-- Claim C2 (code bug): `yday` is the day-of-year calculator and the spec's
own examples pin the conventional 0-based count, but the code disagrees with
that count for August, October and December: `yday(2023,12,31) = 365` while
the conventional count (and the spec's example) is 364, and
`yday(2023,8,1) = 213` instead of 212.  The spec's March example does hold. -/
theorem c2_yday_dayofyear_mismatch :
    yday 2023 12 31 = 365 ∧ dayOfYearRef 2023 12 31 = 364 ∧
    yday 2023 8 1 = 213 ∧ dayOfYearRef 2023 8 1 = 212 ∧
    yday 2023 3 1 = 59 ∧ dayOfYearRef 2023 3 1 = 59 := by
  decide

/-- Claim C3, counterexample: the claim's formula subtracts 1 after February
when the year is *not* a multiple of 4 and 2 when it is; the code does the
opposite.  At (2023, 3, 1) the code yields 59 but the claim's formula 60. -/
theorem c3_counterexample :
    yday 2023 3 1 = 59 ∧ ydayC3Formula 2023 3 1 = 60 ∧
    yday 2023 3 1 ≠ ydayC3Formula 2023 3 1 := by
  decide

/-- Claim C3, amended: `yday` computes `(month-1)*30 + month/2 + (day-1)`,
then subtracts **1** when the month is after February and the year **is** a
multiple of 4, subtracts **2** when the month is after February and the year
is **not** a multiple of 4, and adds 1 when the month is after July. -/
theorem c3_amended (year month day : Int) :
    yday year month day =
      (month - 1) * 30 + Int.tdiv month 2 + (day - 1) -
        (if 2 < month then (if Int.tmod year 4 = 0 then 1 else 2) else 0) +
        (if 7 < month then 1 else 0) := by
  unfold yday
  ring

/-! ## Claim C9: tick-count round trip -/

/-- Claim C9: for every `i64` seconds value whose tick representation is a
representable OS tick count (non-negative and below `2^63`),
`WinFileTime::from_seconds` followed by `as_unix_seconds` is the identity:
the conversion scales by `HECTONANOSECS_IN_SEC` (10^7 hectonanoseconds per
second), adds the fixed `HECTONANOSEC_TO_UNIX_EPOCH` offset
(11,644,473,600 s), splits into two 32-bit words, and the inverse recovers
the original seconds exactly. -/
theorem c9_tick_roundtrip (sec : Int)
    (h0 : 0 ≤ sec * HECTONANOSECS_IN_SEC + HECTONANOSEC_TO_UNIX_EPOCH)
    (h1 : sec * HECTONANOSECS_IN_SEC + HECTONANOSEC_TO_UNIX_EPOCH <
      9223372036854775808) :
    (WinFileTime.from_seconds sec).as_unix_seconds = sec :=
  filetime_roundtrip sec h0 h1

/-- Witness for C9 at `sec = 86400` (and, through the same bounds, at a
pre-epoch instant `sec = -86400`). -/
theorem c9_tick_roundtrip_witness :
    (0 ≤ (86400 : Int) * HECTONANOSECS_IN_SEC + HECTONANOSEC_TO_UNIX_EPOCH) ∧
    ((86400 : Int) * HECTONANOSECS_IN_SEC + HECTONANOSEC_TO_UNIX_EPOCH <
      9223372036854775808) ∧
    (WinFileTime.from_seconds 86400).as_unix_seconds = 86400 :=
  ⟨by decide, by decide, c9_tick_roundtrip 86400 (by decide) (by decide)⟩

/-! ## Claim C8: no `Ambiguous` result -/

theorem tm_to_datetime_cases (tm : Tm) :
    tm_to_datetime tm = none ∨ tm_to_datetime tm = some LocalResult.None ∨
    ∃ dt, tm_to_datetime tm = some (LocalResult.Single dt) := by
  unfold tm_to_datetime
  dsimp only
  repeat' split
  all_goals first
    | exact Or.inl rfl
    | exact Or.inr (Or.inl rfl)
    | exact Or.inr (Or.inr ⟨_, rfl⟩)

/-- Claim C8: for every environment, input and flag, `naive_to_local` either
panics, returns `None` or returns `Single`; the `Ambiguous` kind is never
produced, even for local times inside a DST fall-back overlap. -/
theorem c8_never_ambiguous (env : OsEnv) (d : NaiveDT) (b : Bool) :
    naive_to_local env d b = none ∨ naive_to_local env d b = some LocalResult.None ∨
    ∃ dt, naive_to_local env d b = some (LocalResult.Single dt) := by
  unfold naive_to_local
  dsimp only
  repeat' split
  all_goals first
    | exact Or.inl rfl
    | exact Or.inr (Or.inl rfl)
    | exact tm_to_datetime_cases _

/-! ## Claim C7: step-2 OS failure yields `None` -/

/-- Claim C7: if the step-2 OS conversion fails — `utc_to_time` when
`interpret_as_local` is false, `local_to_time` when it is true — then
`naive_to_local` returns `LocalResult::None` rather than a hard failure. -/
theorem c7_step2_failure_none (env : OsEnv) (d : NaiveDT) :
    (Tm.utc_to_time (naiveToTm d false) = none →
      naive_to_local env d false = some LocalResult.None) ∧
    ((naiveToTm d true).local_to_time env = none →
      naive_to_local env d true = some LocalResult.None) := by
  constructor
  · intro h
    unfold naive_to_local
    simp only [Bool.false_eq_true, if_false]
    rw [h]
  · intro h
    unfold naive_to_local
    simp only [if_true]
    rw [h]

/-- Environment for the C7 witness: the OS local-to-UTC conversion fails
(e.g. a spring-forward gap). -/
def envC7 : OsEnv :=
  { offAt := fun _ => 0, localToUtc := fun _ => none,
    bias := 0, standardBias := 0, tzOk := true }

/-- Input for the C7 witness: a leap-second input whose second field (60)
the OS calendar record cannot represent, so `utc_to_time` fails. -/
def dC7 : NaiveDT :=
  { f := { year := 2012, month := 6, day := 30, hour := 23, minute := 59,
           second := 60 },
    nano := 0 }

theorem c7_step2_failure_none_witness :
    (Tm.utc_to_time (naiveToTm dC7 false) = none ∧
      naive_to_local envC7 dC7 false = some LocalResult.None) ∧
    ((naiveToTm dC7 true).local_to_time envC7 = none ∧
      naive_to_local envC7 dC7 true = some LocalResult.None) :=
  ⟨⟨by decide, (c7_step2_failure_none envC7 dC7).1 (by decide)⟩,
   ⟨by decide, (c7_step2_failure_none envC7 dC7).2 (by decide)⟩⟩

/-! ## Claim C10: which rejections panic and which yield `None` -/

/-- A broken-down time whose date part is valid (2015-06-30), whose time part
is invalid (hour 25) and whose `tm_utcoff` (86400) lies outside the range
`FixedOffset::east_opt` accepts. -/
def tmC10x : Tm :=
  { tm_sec := 30, tm_min := 59, tm_hour := 25, tm_mday := 30, tm_mon := 5,
    tm_year := 115, tm_wday := 0, tm_yday := 0, tm_isdst := 0,
    tm_utcoff := 86400, tm_nsec := 0 }

/-- Claim C10, counterexample: a `tm_utcoff` outside the `east_opt` range
does **not** always panic — when the time composition is also rejected,
`tm_to_datetime` returns `LocalResult::None` without ever examining the
offset. -/
theorem c10_counterexample :
    FixedOffset.east_opt tmC10x.tm_utcoff = none ∧
    NaiveDate.from_ymd_opt (i32wrap (tmC10x.tm_year + 1900))
        (u32wrap (u32wrap tmC10x.tm_mon + 1)) (u32wrap tmC10x.tm_mday) =
      some { year := 2015, month := 6, day := 30 } ∧
    tm_to_datetime tmC10x = some LocalResult.None := by
  decide

/-- Claim C10, amended (stated for inputs the leap clamp leaves unchanged):
a date rejected by `from_ymd_opt` panics regardless of the other fields; a
rejected `tm_utcoff` panics only when the date *and* the time composition
were accepted; a rejected time composition (with an accepted date) returns
`LocalResult::None` without examining `tm_utcoff`. -/
theorem c10_amended (tm : Tm) (h60 : tm.tm_sec < 60) :
    (NaiveDate.from_ymd_opt (i32wrap (tm.tm_year + 1900))
        (u32wrap (u32wrap tm.tm_mon + 1)) (u32wrap tm.tm_mday) = none →
      tm_to_datetime tm = none) ∧
    (∀ date, NaiveDate.from_ymd_opt (i32wrap (tm.tm_year + 1900))
        (u32wrap (u32wrap tm.tm_mon + 1)) (u32wrap tm.tm_mday) = some date →
      NaiveTime.from_hms_nano_opt (u32wrap tm.tm_hour) (u32wrap tm.tm_min)
        (u32wrap tm.tm_sec) (u32wrap tm.tm_nsec) = none →
      tm_to_datetime tm = some LocalResult.None) ∧
    (∀ date time, NaiveDate.from_ymd_opt (i32wrap (tm.tm_year + 1900))
        (u32wrap (u32wrap tm.tm_mon + 1)) (u32wrap tm.tm_mday) = some date →
      NaiveTime.from_hms_nano_opt (u32wrap tm.tm_hour) (u32wrap tm.tm_min)
        (u32wrap tm.tm_sec) (u32wrap tm.tm_nsec) = some time →
      FixedOffset.east_opt tm.tm_utcoff = none →
      tm_to_datetime tm = none) := by
  refine ⟨fun h => ?_, fun date hd ht => ?_, fun date time hd ht ho => ?_⟩ <;>
    (unfold tm_to_datetime
     rw [if_neg (by omega : ¬ 60 ≤ tm.tm_sec)]
     dsimp only)
  · rw [h]
  · rw [hd, ht]
  · rw [hd, ht, ho]

/-- Broken-down time with an invalid date (day 32). -/
def tmC10a : Tm :=
  { tm_sec := 30, tm_min := 10, tm_hour := 10, tm_mday := 32, tm_mon := 5,
    tm_year := 115, tm_wday := 0, tm_yday := 0, tm_isdst := 0,
    tm_utcoff := 0, tm_nsec := 0 }

/-- Broken-down time with a valid date, invalid time (minute 60). -/
def tmC10b : Tm :=
  { tm_sec := 30, tm_min := 60, tm_hour := 10, tm_mday := 15, tm_mon := 5,
    tm_year := 115, tm_wday := 0, tm_yday := 0, tm_isdst := 0,
    tm_utcoff := 0, tm_nsec := 0 }

/-- Broken-down time with a valid date and time but a `tm_utcoff` of
`-86400`, outside the `east_opt` range. -/
def tmC10c : Tm :=
  { tm_sec := 30, tm_min := 10, tm_hour := 10, tm_mday := 15, tm_mon := 5,
    tm_year := 115, tm_wday := 0, tm_yday := 0, tm_isdst := 0,
    tm_utcoff := -86400, tm_nsec := 0 }

theorem c10_amended_witness :
    tm_to_datetime tmC10a = none ∧
    tm_to_datetime tmC10b = some LocalResult.None ∧
    tm_to_datetime tmC10c = none :=
  ⟨(c10_amended tmC10a (by decide)).1 (by decide),
   (c10_amended tmC10b (by decide)).2.1 { year := 2015, month := 6, day := 15 }
     (by decide) (by decide),
   (c10_amended tmC10c (by decide)).2.2 { year := 2015, month := 6, day := 15 }
     { hour := 10, minute := 10, second := 30, nano := 0 }
     (by decide) (by decide) (by decide)⟩

/-! ## Claim C6: offset and DST derivation in `update_from_seconds` -/

/-- Claim C6: whenever `Tm::update_from_seconds` succeeds (stated on the
wrap-free range), the derived `tm_utcoff` equals the local-record-as-if-UTC
epoch seconds minus `s`, and `tm_isdst` is 1 exactly when `tm_utcoff`
differs from `-60 * (bias + standard_bias)` of the queried time-zone
configuration, else 0. -/
theorem c6_update_from_seconds (env : OsEnv) (tm : Tm) (s : Int) (tmOut : Tm)
    (hs0 : -137438953472 ≤ s) (hs1 : s ≤ 137438953472)
    (ho0 : -86400 ≤ env.offAt s) (ho1 : env.offAt s ≤ 86400)
    (h : Tm.update_from_seconds env tm s = some tmOut) :
    tmOut.tm_utcoff = fieldsToSeconds (secondsToFields (s + env.offAt s)) - s ∧
    tmOut.tm_isdst =
      (if tmOut.tm_utcoff = -60 * (env.bias + env.standardBias) then 0 else 1) := by
  have hrt : (WinFileTime.from_seconds s).as_unix_seconds = s :=
    filetime_roundtrip_wide s (by omega) (by omega)
  have hfts : fieldsToSeconds (secondsToFields s) = s :=
    fieldsToSeconds_secondsToFields s
  have hfts2 : fieldsToSeconds (secondsToFields (s + env.offAt s)) =
      s + env.offAt s := fieldsToSeconds_secondsToFields _
  unfold Tm.update_from_seconds fileTimeToSystemTime at h
  rw [hrt] at h
  dsimp only at h
  by_cases hy : 1601 ≤ (secondsToFields s).year ∧ (secondsToFields s).year ≤ 9999
  · rw [if_pos hy] at h
    dsimp only at h
    unfold systemTimeToTzSpecificLocalTime at h
    have hvr : validRec (secondsToFields s) := ⟨secondsToFields_valid s, hy.1, hy.2⟩
    rw [if_pos hvr, hfts] at h
    dsimp only at h
    unfold systemTimeToFileTime at h
    by_cases hv2 : validRec (secondsToFields (s + env.offAt s))
    · rw [if_pos hv2] at h
      dsimp only at h
      rw [hfts2] at h
      have hrt2 : (WinFileTime.from_seconds (s + env.offAt s)).as_unix_seconds =
          s + env.offAt s := filetime_roundtrip_wide _ (by omega) (by omega)
      rw [hrt2] at h
      by_cases ht : env.tzOk
      · rw [if_pos ht] at h
        have hout := Option.some.inj h
        subst hout
        constructor
        · dsimp only
          rw [hfts2]
          unfold i32wrap
          omega
        · dsimp only
      · rw [if_neg ht] at h
        exact Option.noConfusion h
    · rw [if_neg hv2] at h
      exact Option.noConfusion h
  · rw [if_neg hy] at h
    exact Option.noConfusion h

/-- Environment for the C6 witness: constant offset UTC+1, bias -60,
standard bias 0 (so DST is reported as not in effect). -/
def envC6 : OsEnv :=
  { offAt := fun _ => 3600, localToUtc := fun _ => none,
    bias := -60, standardBias := 0, tzOk := true }

/-- The broken-down time `update_from_seconds` produces in `envC6` at
`s = 86400` (1970-01-02 01:00:00 local, offset 3600, DST flag 0). -/
def tmC6out : Tm :=
  { tm_sec := 0, tm_min := 0, tm_hour := 1, tm_mday := 2, tm_mon := 0,
    tm_year := 70, tm_wday := 0, tm_yday := 1, tm_isdst := 0,
    tm_utcoff := 3600, tm_nsec := 0 }

theorem c6_update_from_seconds_witness :
    Tm.update_from_seconds envC6 Tm.default 86400 = some tmC6out ∧
    tmC6out.tm_utcoff =
      fieldsToSeconds (secondsToFields (86400 + envC6.offAt 86400)) - 86400 ∧
    tmC6out.tm_isdst =
      (if tmC6out.tm_utcoff = -60 * (envC6.bias + envC6.standardBias) then 0
       else 1) :=
  ⟨by decide,
   (c6_update_from_seconds envC6 Tm.default 86400 tmC6out (by decide) (by decide)
     (by decide) (by decide) (by decide)).1,
   (c6_update_from_seconds envC6 Tm.default 86400 tmC6out (by decide) (by decide)
     (by decide) (by decide) (by decide)).2⟩

/-! ## Claim C4: where the leap-second normalization happens -/

/-- Environment for the C4 counterexample: constant offset UTC+1. -/
def envC4 : OsEnv :=
  { offAt := fun _ => 3600, localToUtc := fun _ => none,
    bias := -60, standardBias := 0, tzOk := true }

/-- A leap-second input (second = 60). -/
def dC4 : NaiveDT :=
  { f := { year := 2016, month := 12, day := 31, hour := 23, minute := 59,
           second := 60 },
    nano := 0 }

/-- Claim C4, counterexample: were the clamp applied to the original naive
input before any OS interaction, resolving `dC4` would agree with resolving
its normalized form; in fact the unnormalized second 60 reaches the OS
conversion, which rejects it, and the two runs differ. -/
theorem c4_counterexample :
    naive_to_local envC4 dC4 false = some LocalResult.None ∧
    naive_to_local envC4 (normalize_leap dC4) false ≠
      naive_to_local envC4 dC4 false ∧
    naive_to_local envC4 (normalize_leap dC4) false ≠ none := by
  decide

/-- Claim C4, amended: the clamp-and-carry step is applied exactly once, but
inside `tm_to_datetime` — i.e. *after* the OS conversions, to the
broken-down time about to be composed — and not to the original naive input
before step 1: on the `interpret_as_local = false` path an input second of
60 reaches the OS conversion unnormalized and the resolver returns `None`. -/
theorem c4_amended :
    (∀ tm : Tm, 60 ≤ tm.tm_sec →
      tm_to_datetime tm = tm_to_datetime
        { tm with
            tm_sec := 59,
            tm_nsec :=
              i32wrap (tm.tm_nsec +
                i32wrap (i32wrap (tm.tm_sec - 59) * 1000000000)) }) ∧
    (∀ (env : OsEnv) (d : NaiveDT), d.f.second = 60 →
      naive_to_local env d false = some LocalResult.None) := by
  constructor
  · intro tm h
    unfold tm_to_datetime
    dsimp only
    rw [if_pos h, if_neg (by omega : ¬ (60 : Int) ≤ 59)]
  · intro env d h
    have hnv : ¬ validRec (Tm.as_system_time (naiveToTm d false)) := by
      intro hv
      obtain ⟨⟨_, ht⟩, _, _⟩ := hv
      unfold validTime Tm.as_system_time naiveToTm at ht
      dsimp only at ht
      rw [h] at ht
      unfold u16wrap at ht
      omega
    have hnone : Tm.utc_to_time (naiveToTm d false) = none := by
      unfold Tm.utc_to_time systemTimeToFileTime
      rw [if_neg hnv]
    unfold naive_to_local
    simp only [Bool.false_eq_true, if_false]
    rw [hnone]

/-- Broken-down time for the C4 witness (second 60 reaching
`tm_to_datetime`). -/
def tmC4w : Tm :=
  { tm_sec := 60, tm_min := 59, tm_hour := 23, tm_mday := 31, tm_mon := 11,
    tm_year := 116, tm_wday := 0, tm_yday := 0, tm_isdst := 0,
    tm_utcoff := 0, tm_nsec := 0 }

/-- Environment and input for the C4 witness's resolver part. -/
def envC4w : OsEnv :=
  { offAt := fun _ => 7200, localToUtc := fun _ => none,
    bias := -120, standardBias := 0, tzOk := true }

/-- A second leap-second input for the C4 witness. -/
def dC4w : NaiveDT :=
  { f := { year := 1998, month := 12, day := 31, hour := 23, minute := 59,
           second := 60 },
    nano := 500000000 }

theorem c4_amended_witness :
    tm_to_datetime tmC4w = tm_to_datetime
      { tmC4w with
          tm_sec := 59,
          tm_nsec :=
            i32wrap (tmC4w.tm_nsec +
              i32wrap (i32wrap (tmC4w.tm_sec - 59) * 1000000000)) } ∧
    naive_to_local envC4w dC4w false = some LocalResult.None :=
  ⟨c4_amended.1 tmC4w (by decide), c4_amended.2 envC4w dC4w (by decide)⟩

/-! ## Claim C5: resolving a second-60 input -/

/-- Environment for the C5 counterexample: the zone is UTC itself. -/
def envC5 : OsEnv :=
  { offAt := fun _ => 0, localToUtc := some,
    bias := 0, standardBias := 0, tzOk := true }

/-- The 2015-06-30 leap second, as a naive input with second = 60. -/
def dC5 : NaiveDT :=
  { f := { year := 2015, month := 6, day := 30, hour := 23, minute := 59,
           second := 60 },
    nano := 0 }

/-- Claim C5, counterexample: resolving second = 60, nanosecond = 0 with
`interpret_as_local = false` yields `None`, not the claimed `Single` whose
second field is 59: the OS conversion rejects the unnormalized second
before the clamp in `tm_to_datetime` can ever see it. -/
theorem c5_counterexample :
    naive_to_local envC5 dC5 false = some LocalResult.None := by
  decide

/-- Claim C5, amended: the claimed clamp-and-carry behaviour does hold at
the `tm_to_datetime` level: a broken-down time with second 60 and
nanosecond 0 (valid otherwise) produces `Single` with second field 59 and
nanosecond 1_000_000_000, representing the instant exactly one second later
than the same broken-down time with second 59 would; but an external
second-60 *input* to `naive_to_local` never reaches this code and resolves
to `None`. -/
theorem c5_amended (tm : Tm)
    (h60 : tm.tm_sec = 60) (hn : tm.tm_nsec = 0)
    (hymd : validYmd (tm.tm_year + 1900) (tm.tm_mon + 1) tm.tm_mday)
    (hyr : -2147483648 ≤ tm.tm_year + 1900 ∧ tm.tm_year + 1900 ≤ 2147483647)
    (hmon : 0 ≤ tm.tm_mon ∧ tm.tm_mon ≤ 11)
    (hday : 1 ≤ tm.tm_mday ∧ tm.tm_mday ≤ 31)
    (hh : 0 ≤ tm.tm_hour ∧ tm.tm_hour ≤ 23)
    (hmi : 0 ≤ tm.tm_min ∧ tm.tm_min ≤ 59)
    (hoff : -86400 < tm.tm_utcoff ∧ tm.tm_utcoff < 86400) :
    (singleDT (tm_to_datetime tm)).map (fun dt => dt.datetime.nano) =
      some 1000000000 ∧
    (singleDT (tm_to_datetime tm)).map (fun dt => dt.naiveLocal.f.second) =
      some 59 ∧
    (singleDT (tm_to_datetime tm)).map instantNanos =
      (singleDT (tm_to_datetime { tm with tm_sec := 59 })).map
        (fun dt => instantNanos dt + 1000000000) := by
  have hclamp : i32wrap (tm.tm_nsec +
      i32wrap (i32wrap (tm.tm_sec - 59) * 1000000000)) = 1000000000 := by
    rw [h60, hn]; decide
  have hI : i32wrap (tm.tm_year + 1900) = tm.tm_year + 1900 :=
    i32wrap_small _ hyr.1 hyr.2
  have hMo : u32wrap (u32wrap tm.tm_mon + 1) = tm.tm_mon + 1 := by
    rw [u32wrap_small tm.tm_mon (by omega) (by omega)]
    exact u32wrap_small _ (by omega) (by omega)
  have hDa : u32wrap tm.tm_mday = tm.tm_mday :=
    u32wrap_small _ (by omega) (by omega)
  have hHo : u32wrap tm.tm_hour = tm.tm_hour :=
    u32wrap_small _ (by omega) (by omega)
  have hMi : u32wrap tm.tm_min = tm.tm_min :=
    u32wrap_small _ (by omega) (by omega)
  have hvf : validFields
      { year := tm.tm_year + 1900, month := tm.tm_mon + 1, day := tm.tm_mday,
        hour := tm.tm_hour, minute := tm.tm_min, second := 59 } := by
    refine ⟨hymd, ?_⟩
    unfold validTime
    dsimp only
    omega
  have hT : tm_to_datetime tm = some (LocalResult.Single
      (DateTime.from_utc
        ((NaiveDate.and_time
            { year := tm.tm_year + 1900, month := tm.tm_mon + 1, day := tm.tm_mday }
            { hour := tm.tm_hour, minute := tm.tm_min, second := 59,
              nano := 1000000000 }).subOffset
          { localMinusUtc := tm.tm_utcoff })
        { localMinusUtc := tm.tm_utcoff })) := by
    unfold tm_to_datetime
    dsimp only
    rw [if_pos (by omega : (60 : Int) ≤ tm.tm_sec)]
    dsimp only
    rw [hclamp, hI, hMo, hDa]
    unfold NaiveDate.from_ymd_opt
    rw [if_pos hymd]
    dsimp only
    rw [hHo, hMi, (by decide : u32wrap (59 : Int) = 59),
      (by decide : u32wrap (1000000000 : Int) = 1000000000)]
    unfold NaiveTime.from_hms_nano_opt
    rw [if_pos (by refine ⟨?_, ?_, ?_, ?_, ?_, ?_, ?_, ?_⟩ <;> omega)]
    dsimp only
    unfold FixedOffset.east_opt
    rw [if_pos hoff]
  have hT59 : tm_to_datetime { tm with tm_sec := 59 } = some (LocalResult.Single
      (DateTime.from_utc
        ((NaiveDate.and_time
            { year := tm.tm_year + 1900, month := tm.tm_mon + 1, day := tm.tm_mday }
            { hour := tm.tm_hour, minute := tm.tm_min, second := 59,
              nano := 0 }).subOffset
          { localMinusUtc := tm.tm_utcoff })
        { localMinusUtc := tm.tm_utcoff })) := by
    unfold tm_to_datetime
    dsimp only
    rw [if_neg (by omega : ¬ (60 : Int) ≤ 59)]
    dsimp only
    rw [hI, hMo, hDa]
    unfold NaiveDate.from_ymd_opt
    rw [if_pos hymd]
    dsimp only
    rw [hHo, hMi, hn, (by decide : u32wrap (59 : Int) = 59),
      (by decide : u32wrap (0 : Int) = 0)]
    unfold NaiveTime.from_hms_nano_opt
    rw [if_pos (by refine ⟨?_, ?_, ?_, ?_, ?_, ?_, ?_, ?_⟩ <;> omega)]
    dsimp only
    unfold FixedOffset.east_opt
    rw [if_pos hoff]
  rw [hT, hT59]
  unfold singleDT
  dsimp only [Option.map]
  unfold DateTime.from_utc DateTime.naiveLocal NaiveDT.subOffset NaiveDT.addSeconds
    NaiveDate.and_time instantNanos
  dsimp only
  have e1 : fieldsToSeconds (secondsToFields (fieldsToSeconds
      { year := tm.tm_year + 1900, month := tm.tm_mon + 1, day := tm.tm_mday,
        hour := tm.tm_hour, minute := tm.tm_min, second := 59 } +
      -tm.tm_utcoff)) =
      fieldsToSeconds
      { year := tm.tm_year + 1900, month := tm.tm_mon + 1, day := tm.tm_mday,
        hour := tm.tm_hour, minute := tm.tm_min, second := 59 } +
      -tm.tm_utcoff :=
    fieldsToSeconds_secondsToFields _
  refine ⟨rfl, ?_, ?_⟩
  · rw [e1]
    have e2 : fieldsToSeconds
        { year := tm.tm_year + 1900, month := tm.tm_mon + 1, day := tm.tm_mday,
          hour := tm.tm_hour, minute := tm.tm_min, second := 59 } +
        -tm.tm_utcoff + tm.tm_utcoff =
        fieldsToSeconds
        { year := tm.tm_year + 1900, month := tm.tm_mon + 1, day := tm.tm_mday,
          hour := tm.tm_hour, minute := tm.tm_min, second := 59 } := by ring
    rw [e2, secondsToFields_fieldsToSeconds _ hvf]
  · rw [e1]
    simp only [Option.some.injEq]
    ring

/-- Broken-down time for the C5 witness: the 2015-06-30 leap second with a
UTC+1 offset attached. -/
def tmC5w : Tm :=
  { tm_sec := 60, tm_min := 59, tm_hour := 23, tm_mday := 30, tm_mon := 5,
    tm_year := 115, tm_wday := 0, tm_yday := 0, tm_isdst := 0,
    tm_utcoff := 3600, tm_nsec := 0 }

theorem c5_amended_witness :
    (singleDT (tm_to_datetime tmC5w)).map (fun dt => dt.datetime.nano) =
      some 1000000000 ∧
    (singleDT (tm_to_datetime tmC5w)).map (fun dt => dt.naiveLocal.f.second) =
      some 59 ∧
    (singleDT (tm_to_datetime tmC5w)).map instantNanos =
      (singleDT (tm_to_datetime { tmC5w with tm_sec := 59 })).map
        (fun dt => instantNanos dt + 1000000000) :=
  c5_amended tmC5w (by decide) (by decide) (by decide) (by decide) (by decide)
    (by decide) (by decide) (by decide) (by decide)

/-! ## Claim C1: the resolver round trip -/

/-- Environment for the C1 counterexample: a zone one hour east of UTC with
no DST transitions anywhere (every date is a non-DST-boundary date). -/
def envC1 : OsEnv :=
  { offAt := fun _ => 3600, localToUtc := fun _ => none,
    bias := -60, standardBias := 0, tzOk := true }

/-- A plain valid naive date-time, nowhere near any DST boundary. -/
def dC1 : NaiveDT :=
  { f := { year := 2000, month := 6, day := 15, hour := 12, minute := 0,
           second := 0 },
    nano := 0 }

/-- Claim C1, counterexample: resolving `dC1` (12:00) with
`interpret_as_local = false` in a constant-offset UTC+1 zone yields an aware
value whose hour accessor reads back 13, not 12 — the accessors present the
local view, which is the input shifted by the zone offset. -/
theorem c1_counterexample :
    (singleDT (naive_to_local envC1 dC1 false)).map
      (fun dt => dt.naiveLocal.f.hour) = some 13 ∧
    dC1.f.hour = 12 := by
  decide

/-- Claim C1, amended: resolving a valid naive date-time `d` with
`interpret_as_local = false` (in-range, away from any DST boundary at the
resolved instant, with the OS conversions succeeding) yields
`Single`, whose **UTC view** reproduces `d`'s fields and nanosecond exactly
and whose offset is the zone offset `z` at that instant; the
year/month/day/hour/minute/second/nanosecond accessors, however, present
the **local view** — `d` shifted by `z` — so the claim's readback equality
holds exactly when that offset is zero. -/
theorem c1_amended (env : OsEnv) (d : NaiveDT) (z : Int)
    (hv : validNaive d)
    (hyr : 1601 ≤ d.f.year ∧ d.f.year ≤ 9999)
    (hoff : env.offAt (fieldsToSeconds d.f) = z)
    (hz : -86400 < z ∧ z < 86400)
    (hyr2 : 1601 ≤ (secondsToFields (fieldsToSeconds d.f + z)).year ∧
      (secondsToFields (fieldsToSeconds d.f + z)).year ≤ 9999)
    (htz : env.tzOk = true) :
    naive_to_local env d false =
      some (LocalResult.Single
        { datetime := { f := d.f, nano := d.nano },
          offset := { localMinusUtc := z } }) ∧
    DateTime.naiveLocal
        { datetime := { f := d.f, nano := d.nano },
          offset := { localMinusUtc := z } } =
      { f := secondsToFields (fieldsToSeconds d.f + z), nano := d.nano } := by
  obtain ⟨hvf, hn0, hn1⟩ := hv
  have hymd := hvf.1
  have hTd := hvf.2
  obtain ⟨hm1, hm2, hd1, hd2⟩ := hymd
  unfold validTime at hTd
  obtain ⟨hh0, hh1, hmi0, hmi1, hs0, hs1⟩ := hTd
  have hd31 : d.f.day ≤ 31 := by
    unfold daysInMonth at hd2; split_ifs at hd2 <;> omega
  have hvrec : validRec d.f := ⟨hvf, hyr.1, hyr.2⟩
  have hsr := fieldsToSeconds_range d.f hvrec
  have hsf : secondsToFields (fieldsToSeconds d.f) = d.f :=
    secondsToFields_fieldsToSeconds d.f hvf
  have hvL : validFields (secondsToFields (fieldsToSeconds d.f + z)) :=
    secondsToFields_valid _
  have hvrecL : validRec (secondsToFields (fieldsToSeconds d.f + z)) :=
    ⟨hvL, hyr2.1, hyr2.2⟩
  have hLs : fieldsToSeconds (secondsToFields (fieldsToSeconds d.f + z)) =
      fieldsToSeconds d.f + z := fieldsToSeconds_secondsToFields _
  have hLymd := hvL.1
  have hLt := hvL.2
  unfold validTime at hLt
  obtain ⟨hLh0, hLh1, hLmi0, hLmi1, hLs0, hLs1⟩ := hLt
  obtain ⟨hLm1, hLm2, hLd1, hLd2⟩ := hLymd
  have hLd31 : (secondsToFields (fieldsToSeconds d.f + z)).day ≤ 31 := by
    unfold daysInMonth at hLd2; split_ifs at hLd2 <;> omega
  have hA1 : Tm.as_system_time (naiveToTm d false) = d.f := by
    unfold Tm.as_system_time naiveToTm
    dsimp only
    rw [(by ring : d.f.year - 1900 + 1900 = d.f.year),
        (by ring : d.f.month - 1 + 1 = d.f.month),
        u16wrap_small d.f.year (by omega) (by omega),
        u16wrap_small d.f.month (by omega) (by omega),
        u16wrap_small d.f.day (by omega) (by omega),
        u16wrap_small d.f.hour (by omega) (by omega),
        u16wrap_small d.f.minute (by omega) (by omega),
        u16wrap_small d.f.second (by omega) (by omega)]
  have hA3 : Tm.utc_to_time (naiveToTm d false) = some (fieldsToSeconds d.f) := by
    unfold Tm.utc_to_time systemTimeToFileTime
    rw [hA1, if_pos hvrec]
    dsimp only
    rw [filetime_roundtrip_wide (fieldsToSeconds d.f) (by omega) (by omega)]
  have hB : Timespec.localTm env { sec := fieldsToSeconds d.f, nsec := 0 } = some
      { (Tm.update_from_system_time Tm.default
          (secondsToFields (fieldsToSeconds d.f + z))) with
          tm_utcoff := z,
          tm_isdst := if z = -60 * (env.bias + env.standardBias) then 0 else 1,
          tm_nsec := 0 } := by
    unfold Timespec.localTm Tm.from_timespec Tm.update_from_seconds
      fileTimeToSystemTime
    dsimp only
    rw [filetime_roundtrip_wide (fieldsToSeconds d.f) (by omega) (by omega), hsf]
    rw [if_pos (⟨hyr.1, hyr.2⟩ : 1601 ≤ d.f.year ∧ d.f.year ≤ 9999)]
    dsimp only
    unfold systemTimeToTzSpecificLocalTime
    rw [if_pos hvrec, hoff]
    dsimp only
    unfold systemTimeToFileTime
    rw [if_pos hvrecL]
    dsimp only
    rw [hLs]
    rw [filetime_roundtrip_wide (fieldsToSeconds d.f + z) (by omega) (by omega)]
    rw [htz, if_pos rfl]
    dsimp only
    rw [(by unfold i32wrap; omega :
      i32wrap (fieldsToSeconds d.f + z - fieldsToSeconds d.f) = z)]
  refine ⟨?_, rfl⟩
  unfold naive_to_local
  dsimp only
  simp only [Bool.false_eq_true, if_false]
  rw [hA3]
  unfold naiveToTm
  dsimp only
  rw [hB]
  dsimp only
  rw [if_pos rfl]
  unfold tm_to_datetime Tm.update_from_system_time Tm.default
  dsimp only
  rw [if_neg (by omega :
    ¬ (60 : Int) ≤ (secondsToFields (fieldsToSeconds d.f + z)).second)]
  dsimp only
  rw [(by ring : (secondsToFields (fieldsToSeconds d.f + z)).year - 1900 + 1900 =
        (secondsToFields (fieldsToSeconds d.f + z)).year),
      i32wrap_small (secondsToFields (fieldsToSeconds d.f + z)).year
        (by omega) (by omega),
      u32wrap_small ((secondsToFields (fieldsToSeconds d.f + z)).month - 1)
        (by omega) (by omega),
      (by ring : (secondsToFields (fieldsToSeconds d.f + z)).month - 1 + 1 =
        (secondsToFields (fieldsToSeconds d.f + z)).month),
      u32wrap_small (secondsToFields (fieldsToSeconds d.f + z)).month
        (by omega) (by omega),
      u32wrap_small (secondsToFields (fieldsToSeconds d.f + z)).day
        (by omega) (by omega)]
  unfold NaiveDate.from_ymd_opt
  rw [if_pos hvL.1]
  dsimp only
  rw [u32wrap_small (secondsToFields (fieldsToSeconds d.f + z)).hour
        (by omega) (by omega),
      u32wrap_small (secondsToFields (fieldsToSeconds d.f + z)).minute
        (by omega) (by omega),
      u32wrap_small (secondsToFields (fieldsToSeconds d.f + z)).second
        (by omega) (by omega),
      i32wrap_small d.nano (by omega) (by omega),
      u32wrap_small d.nano (by omega) (by omega)]
  unfold NaiveTime.from_hms_nano_opt
  rw [if_pos (by refine ⟨?_, ?_, ?_, ?_, ?_, ?_, ?_, ?_⟩ <;> omega)]
  dsimp only
  unfold FixedOffset.east_opt
  rw [if_pos hz]
  dsimp only
  unfold NaiveDate.and_time NaiveDT.subOffset NaiveDT.addSeconds DateTime.from_utc
  dsimp only
  have heta : ({ year := (secondsToFields (fieldsToSeconds d.f + z)).year,
                 month := (secondsToFields (fieldsToSeconds d.f + z)).month,
                 day := (secondsToFields (fieldsToSeconds d.f + z)).day,
                 hour := (secondsToFields (fieldsToSeconds d.f + z)).hour,
                 minute := (secondsToFields (fieldsToSeconds d.f + z)).minute,
                 second := (secondsToFields (fieldsToSeconds d.f + z)).second } :
      Fields) = secondsToFields (fieldsToSeconds d.f + z) := rfl
  rw [heta]
  rw [hLs]
  rw [(by ring : fieldsToSeconds d.f + z + -z = fieldsToSeconds d.f)]
  rw [hsf]

/-- Environment for the C1 witness: a constant UTC-5 zone (no DST). -/
def envC1w : OsEnv :=
  { offAt := fun _ => -18000, localToUtc := fun _ => none,
    bias := 300, standardBias := 0, tzOk := true }

/-- Input for the C1 witness. -/
def dC1w : NaiveDT :=
  { f := { year := 1999, month := 3, day := 4, hour := 5, minute := 6,
           second := 7 },
    nano := 800000000 }

theorem c1_amended_witness :
    naive_to_local envC1w dC1w false =
      some (LocalResult.Single
        { datetime := { f := dC1w.f, nano := dC1w.nano },
          offset := { localMinusUtc := -18000 } }) ∧
    DateTime.naiveLocal
        { datetime := { f := dC1w.f, nano := dC1w.nano },
          offset := { localMinusUtc := -18000 } } =
      { f := secondsToFields (fieldsToSeconds dC1w.f + -18000),
        nano := dC1w.nano } :=
  c1_amended envC1w dC1w (-18000) (by decide) (by decide) (by decide)
    (by decide) (by decide) (by decide)

end ChronoWin
